import Mathlib

/-!
Verification development for the onedriver metadata-and-content cache.

The definitions below are a shallow embedding of the Go sources:
  * `src/graph/content.go`     — `DriveItemContent` and its `Read`/`Write`,
  * `src/graph/drive_item.go`  — `DriveItem` and its derived attributes,
  * `src/unnamed/part_000`     — the FUSE-facing handlers (`GetAttr`, `Rename`,
    `Chmod`, `Unlink`, the `ignore` list),
  * `src/unnamed/part_001` (first file) — the `Cache` (metadata graph) with
    `GetID`/`InsertID`/`DeleteID`, `GetChildrenID`, `GetPath`, `DeletePath`,
    `InsertPath`, `MoveID`, `MovePath`, `pollDeltas`, `applyDelta`.

Modelling conventions:
  * Go maps / `sync.Map` become association lists with replace-on-store
    semantics; pointer mutation of a cached item becomes re-storing the value
    under its id.
  * Machine integers become `Nat` (with an explicit `% 2 ^ 32` where the source
    truncates to `uint32`, and `Int` arithmetic where the source computes with
    possibly negative `int` values).
  * A Go `nil`-pointer dereference (a crash) is modelled by returning `none`
    from an `Option`-valued function.
  * Network I/O (the RemoteGateway of the spec) is an external capability: it
    is passed in as an oracle (`Fetcher`, patch results, ...) and every remote
    call made is recorded in a call log (`List String`).
  * String manipulation is re-implemented structurally over `List Char`
    (mirroring the semantics of the Go standard-library calls used by the
    source) so that all definitions reduce in the kernel.
-/

/-! ## String helpers (semantics of the Go stdlib calls used by the source) -/

/-- Boolean test that `pre` is a prefix of `l` (semantics of `strings.HasPrefix`). -/
def charsPre : List Char → List Char → Bool
  | [], _ => true
  | _ :: _, [] => false
  | a :: as, b :: bs => a = b && charsPre as bs

/-- Boolean substring test on character lists (semantics of `strings.Contains`). -/
def listSubstr (pat : List Char) : List Char → Bool
  | [] => pat.isEmpty
  | b :: bs => charsPre pat (b :: bs) || listSubstr pat bs

/-- `strContains s pat` is Go `strings.Contains(s, pat)`. -/
def strContains (s pat : String) : Bool :=
  listSubstr pat.toList s.toList

/-- `strHasPre s pre` is Go `strings.HasPrefix(s, pre)`. -/
def strHasPre (s pre : String) : Bool :=
  charsPre pre.toList s.toList

/-- Go `strings.TrimPrefix(s, pre)`: drop `pre` if it is a prefix, else `s`. -/
def trimPre (s pre : String) : String :=
  if strHasPre s pre then ⟨s.toList.drop pre.toList.length⟩ else s

/-- Go `strings.TrimSuffix(s, "/")`: remove one trailing slash if present. -/
def trimSlashSuffix (s : String) : String :=
  match s.toList.reverse with
  | [] => s
  | ch :: rest => if ch = '/' then ⟨rest.reverse⟩ else s

/-- Lower-case a string character-wise (semantics of `strings.ToLower` for the
ASCII names handled here). -/
def lowerStr (s : String) : String :=
  ⟨s.toList.map Char.toLower⟩

/-- Split a character list on a separator character (semantics of
`strings.Split` with a one-character separator). -/
def splitOnChar (sep : Char) : List Char → List (List Char)
  | [] => [[]]
  | ch :: rest =>
    if ch = sep then [] :: splitOnChar sep rest
    else
      match splitOnChar sep rest with
      | [] => [[ch]]
      | g :: gs => (ch :: g) :: gs

/-- `strings.Split(s, "/")` as a list of strings. -/
def splitSlash (s : String) : List String :=
  (splitOnChar '/' s.toList).map (fun l => ⟨l⟩)

/-- Join strings with "/" (semantics of `strings.Join(xs, "/")`). -/
def joinSlash : List String → String
  | [] => ""
  | [s] => s
  | s :: rest => s ++ "/" ++ joinSlash rest

/-- Replace every left-to-right non-overlapping occurrence of "//" by "/"
(semantics of `strings.Replace(s, "//", "/", -1)`). -/
def squashDoubleSlash : List Char → List Char
  | [] => []
  | '/' :: '/' :: rest => '/' :: squashDoubleSlash rest
  | ch :: rest => ch :: squashDoubleSlash rest

/-- Last element of a list of strings, if any. -/
def lastStr : List String → Option String
  | [] => none
  | [s] => some s
  | _ :: rest => lastStr rest

/-- The path components of a clean absolute slash-path (non-empty segments). -/
def pathComps (p : String) : List String :=
  (splitSlash p).filter (fun s => s ≠ "")

/-- `filepath.Base` for the clean absolute paths the FUSE layer hands over:
the last path component, or "/" for the root. -/
def pathBase (p : String) : String :=
  match lastStr (pathComps p) with
  | some b => b
  | none => "/"

/-- `filepath.Dir` for the clean absolute paths the FUSE layer hands over:
everything up to the last component, or "/" at top level. -/
def pathDir (p : String) : String :=
  match (pathComps p).dropLast with
  | [] => "/"
  | ps => "/" ++ joinSlash ps

/-! ## Data model: `DriveItem` (drive_item.go) -/

/-- `fuse.S_IFDIR`. -/
def S_IFDIR : Nat := 16384

/-- `fuse.S_IFREG`. -/
def S_IFREG : Nat := 32768

/-- A metadata node, after `DriveItem` of drive_item.go.  Pointer-valued facets
(`FileInternal`, `Folder`, `Deleted`) are modelled by their presence; the
parent reference (`Parent.ID`, `Parent.Path`) is inlined as two fields. -/
structure DriveItem where
  idInternal : String
  nameInternal : String
  sizeInternal : Nat
  modTimeInternal : Nat
  /-- the unexported `mode` field; `0` when the item came from the Graph API -/
  modeInternal : Nat
  /-- `Parent.ID` -/
  parentID : String
  /-- `Parent.Path` -/
  parentPath : String
  /-- child ids; `none` models the nil slice ("children not yet enumerated") -/
  children : Option (List String)
  /-- the unexported `subdir` counter used by `NLink` -/
  subdir : Nat
  /-- whether the `FileInternal` facet pointer is non-nil -/
  fileInternal : Bool
  /-- whether the `Folder` facet pointer is non-nil -/
  folderInternal : Bool
  /-- `Deleted.State`, when the `Deleted` facet is present -/
  deletedState : Option String
  hasChanges : Bool
deriving DecidableEq

/-- `isLocalID` of drive_item.go. -/
def isLocalID (id : String) : Bool :=
  strHasPre id "local-" || id = ""

/-- `DriveItem.Mode`: the stored mode, or a kind-dependent default when the
item was fetched from the API (`mode == 0`). -/
def DriveItem.mode (d : DriveItem) : Nat :=
  if d.modeInternal = 0 then
    if d.fileInternal = false then S_IFDIR ||| 0o755 else S_IFREG ||| 0o644
  else d.modeInternal

/-- `DriveItem.IsDir`: the directory bit of `Mode` is set. -/
def DriveItem.isDir (d : DriveItem) : Bool :=
  d.mode &&& S_IFDIR > 0

/-- `DriveItem.NLink`: `2 + subdir` for directories, `1` for files. -/
def DriveItem.nlink (d : DriveItem) : Nat :=
  if d.isDir then 2 + d.subdir else 1

/-- `DriveItem.Size`: directories pretend to be 4096 bytes. -/
def DriveItem.size (d : DriveItem) : Nat :=
  if d.isDir then 4096 else d.sizeInternal

/-- `DriveItem.Path`: "/" for the root, otherwise `Parent.Path + "/" + Name`
with the "/drive/root:" prefix trimmed and "//" squashed. -/
def DriveItem.path (d : DriveItem) : String :=
  if d.parentID = "" && d.nameInternal = "root" then "/"
  else ⟨squashDoubleSlash (trimPre (d.parentPath ++ "/" ++ d.nameInternal) "/drive/root:").toList⟩

/-- The stat structure filled in by `DriveItem.GetAttr`. -/
structure Attr where
  size : Nat
  nlink : Nat
  atime : Nat
  mtime : Nat
  ctime : Nat
  mode : Nat
deriving DecidableEq

/-- `DriveItem.GetAttr`: translate the item's fields to a stat structure. -/
def DriveItem.getAttrOut (d : DriveItem) : Attr :=
  ⟨d.size, d.nlink, d.modTimeInternal, d.modTimeInternal, d.modTimeInternal, d.mode⟩

/-! ## Association-list maps (Go `map` / `sync.Map` with unique keys) -/

/-- First-match lookup. -/
def mapLookup : List (String × DriveItem) → String → Option DriveItem
  | [], _ => none
  | (k, v) :: rest, key => if k = key then some v else mapLookup rest key

/-- Store with replace-on-existing-key semantics (Go map assignment /
`sync.Map.Store`). -/
def mapStore : List (String × DriveItem) → String → DriveItem → List (String × DriveItem)
  | [], key, v => [(key, v)]
  | (k, w) :: rest, key, v => if k = key then (key, v) :: rest else (k, w) :: mapStore rest key v

/-- Remove every binding of a key (`sync.Map.Delete`; keys are unique). -/
def mapRemove : List (String × DriveItem) → String → List (String × DriveItem)
  | [], _ => []
  | (k, w) :: rest, key => if k = key then mapRemove rest key else (k, w) :: mapRemove rest key

/-! ## The metadata cache (part_001, first file) -/

/-- The in-memory metadata graph of `Cache`: the live `metadata` map, the root
id, and the current delta link.  (The boltdb cold tier and the live content
map are not needed by the claims about the metadata graph.) -/
structure Cache where
  metadata : List (String × DriveItem)
  root : String
  deltaLink : String
deriving DecidableEq

/-- `Cache.GetID`: pure lookup, no network. -/
def Cache.getID (c : Cache) (id : String) : Option DriveItem :=
  mapLookup c.metadata id

/-- `Cache.InsertID`: store an item by id. -/
def Cache.insertID (c : Cache) (id : String) (item : DriveItem) : Cache :=
  { c with metadata := mapStore c.metadata id item }

/-- `Cache.DeleteID`: remove an item by id. -/
def Cache.deleteID (c : Cache) (id : String) : Cache :=
  { c with metadata := mapRemove c.metadata id }

/-- An auth handle: `none` is a nil `*Auth`, `some t` holds the access token
(`&Auth{}` is `some ""`). -/
abbrev Auth := Option String

/-- The check `auth == nil || auth.AccessToken == ""` from `GetChildrenID`. -/
def authIsZero : Auth → Bool
  | none => true
  | some t => t = ""

/-- Whether a non-nil auth carries a non-empty token (the gate of the
promotion branch of `DriveItem.RemoteID`). -/
def authTokenPresent : Auth → Bool
  | none => false
  | some t => ¬t = ""

/-! ## Remote oracles and call logs -/

/-- The children-fetch capability: models `Get(ChildrenPathID(id), auth)`
followed by unmarshalling the `value` array (`driveChildren.Children`). -/
abbrev Fetcher := String → Except String (List DriveItem)

/-- The URL of a children listing, `/me/drive/items/{id}/children`
(the `ChildrenPathID` helper lives outside the given sources; the URL shape
is the one of spec §4.3). -/
def childrenURL (id : String) : String :=
  "/me/drive/items/" ++ id ++ "/children"

/-! ## `Cache.GetChildrenID` (part_001 lines 184-245) -/

/-- Build the lowercased-name → item map from an already-initialized children
id list, skipping ids whose item was deleted or never existed. -/
def buildChildMap (c : Cache) : List String → List (String × DriveItem) → List (String × DriveItem)
  | [], acc => acc
  | cid :: rest, acc =>
    match c.getID cid with
    | none => buildChildMap c rest acc
    | some child => buildChildMap c rest (mapStore acc (lowerStr child.nameInternal) child)

/-- The result map of a fresh children fetch: lowercased name → item, later
entries overwriting earlier ones (Go map assignment). -/
def fetchedChildMap : List DriveItem → List (String × DriveItem) → List (String × DriveItem)
  | [], acc => acc
  | child :: rest, acc => fetchedChildMap rest (mapStore acc (lowerStr child.nameInternal) child)

/-- `Cache.GetChildrenID`.  Returns the updated cache, the log of remote calls
made, and either an error or the children map.  In the fetch branch the Go
code mutates the parent item in place while storing each fetched child under
its id; with value semantics this is: store the children, then re-store the
updated parent — unless some fetched child reuses the parent's id, in which
case that child's binding is what survives (the in-place parent mutations then
land on an object no longer referenced by the map). -/
def getChildrenID (c : Cache) (id : String) (auth : Auth) (fetch : Fetcher) :
    Cache × List String × Except String (List (String × DriveItem)) :=
  match c.getID id with
  | none => (c, [], Except.error (id ++ " does not exist in cache"))
  | some item =>
    if !item.isDir then (c, [], Except.ok [])
    else
      match item.children with
      | some ids => (c, [], Except.ok (buildChildMap c ids []))
      | none =>
        if authIsZero auth then
          (c, [], Except.error ("Auth was nil/zero and children of \"" ++ item.path ++
            "\" were not in cache. Could not fetch item as a result."))
        else
          match fetch id with
          | Except.error e => (c, [childrenURL id], Except.error e)
          | Except.ok fetched =>
            let childIDs := fetched.map (fun ch => ch.idInternal)
            let item' := { item with
              children := some childIDs,
              subdir := (item.subdir + (fetched.filter (fun ch => ch.isDir)).length) % 2 ^ 32 }
            let c1 := fetched.foldl (fun acc ch => acc.insertID ch.idInternal ch) c
            let c2 := if fetched.any (fun ch => ch.idInternal = id) then c1 else c1.insertID id item'
            (c2, [childrenURL id], Except.ok (fetchedChildMap fetched []))

/-! ## `Cache.GetPath` (part_001 lines 259-288) -/

/-- The loop of `GetPath`: walk the remaining (already lowercased) components
from `lastID`, accumulating consumed components for the error message and the
remote-call log. -/
def getPathAux (auth : Auth) (fetch : Fetcher) :
    Cache → String → List String → List String → List String →
    Cache × List String × (String ⊕ Option DriveItem)
  | c, _, _, [], log => (c, log, Sum.inr none)
  | c, lastID, done, comp :: rest, log =>
    match getChildrenID c lastID auth fetch with
    | (c1, log1, Except.error e) => (c1, log ++ log1, Sum.inl e)
    | (c1, log1, Except.ok m) =>
      match mapLookup m comp with
      | none => (c1, log ++ log1, Sum.inl (joinSlash (done ++ [comp]) ++
          " does not exist on server or in local cache"))
      | some item =>
        match rest with
        | [] => (c1, log ++ log1, Sum.inr (some item))
        | _ :: _ => getPathAux auth fetch c1 item.idInternal (done ++ [comp]) rest (log ++ log1)

/-- `Cache.GetPath`.  The `Sum.inl` case is Go's `(nil, err)` return; the
`Sum.inr` case is `(item, nil)` where the item can still be nil (`GetID` of
the root for path "/", or the zero-iteration loop). -/
def getPath (c : Cache) (path : String) (auth : Auth) (fetch : Fetcher) :
    Cache × List String × (String ⊕ Option DriveItem) :=
  if path = "/" then (c, [], Sum.inr (c.getID c.root))
  else
    let split := (splitSlash (trimSlashSuffix (lowerStr path))).drop 1
    getPathAux auth fetch c c.root [] split []

/-! ## Parent bookkeeping and path-level mutation (part_001 lines 291-381) -/

/-- Remove the first occurrence of an id from a children list
(the loop of `removeParent`). -/
def removeFirstOcc : List String → String → List String
  | [], _ => []
  | x :: xs, id => if x = id then xs else x :: removeFirstOcc xs id

/-- Replace the first occurrence of an id in a children list
(the loop of `MoveID`). -/
def replaceFirst : List String → String → String → List String
  | [], _, _ => []
  | x :: xs, a, b => if x = a then b :: xs else x :: replaceFirst xs a b

/-- `Cache.setParent`: bump the parent's subdir count for directories, append
the item's id to the parent's children and point the item at the parent.
Returns the updated parent and item values (the Go code mutates both in
place). -/
def setParent (item parent : DriveItem) : DriveItem × DriveItem :=
  let parent' := { parent with
    subdir := if item.isDir then (parent.subdir + 1) % 2 ^ 32 else parent.subdir,
    children := some ((parent.children.getD []) ++ [item.idInternal]) }
  let item' := { item with parentID := parent.idInternal }
  (parent', item')

/-- `Cache.removeParent`: a nil item is a no-op; otherwise drop the item's id
from its parent's children and decrement `subdir` for directories (uint32
arithmetic).  A missing parent is a nil dereference (`none`). -/
def Cache.removeParent (c : Cache) (item? : Option DriveItem) : Option Cache :=
  match item? with
  | none => some c
  | some item =>
    match c.getID item.parentID with
    | none => none
    | some parent =>
      let parent' := { parent with
        children := parent.children.map (fun l => removeFirstOcc l item.idInternal),
        subdir := if item.isDir then (parent.subdir + (2 ^ 32 - 1)) % 2 ^ 32 else parent.subdir }
      some (c.insertID item.parentID parent')

/-- `Cache.DeletePath` (lines 317-326).  Note the source guards
`removeParent` by `err != nil` — on that branch `GetPath` returned a nil item,
so `removeParent` is a no-op and the subsequent `item.ID()` dereferences nil
(`none` here); on the success branch `removeParent` is never called and only
`DeleteID` runs. -/
def deletePath (c : Cache) (key : String) (fetch : Fetcher) : Option Cache :=
  let k := lowerStr key
  match getPath c k (some "") fetch with
  | (c1, _, Sum.inl _e) =>
    match c1.removeParent none with
    | some _c2 => none
    | none => none
  | (_c1, _, Sum.inr none) => none
  | (c1, _, Sum.inr (some item)) => some (c1.deleteID item.idInternal)

/-- `Cache.InsertPath` (lines 330-342): resolve the parent directory of the
(lowercased) key, then `setParent` and store the item. -/
def insertPath (c : Cache) (key : String) (auth : Auth) (item : DriveItem) (fetch : Fetcher) :
    Cache × Except String Unit :=
  let k := lowerStr key
  match getPath c (pathDir k) auth fetch with
  | (c1, _, Sum.inl e) => (c1, Except.error e)
  | (c1, _, Sum.inr none) =>
    (c1, Except.error "Parent of key was nil! Did we accidentally use an ID for the key?")
  | (c1, _, Sum.inr (some parent)) =>
    let pi := setParent item parent
    let c2 := c1.insertID parent.idInternal pi.1
    let c3 := c2.insertID pi.2.idInternal pi.2
    (c3, Except.ok ())

/-- `Cache.MoveID` (lines 345-365): rewrite the entry for `oldID` in the
parent's children list, re-key the item under `newID`, drop the `oldID`
binding.  A missing item yields the `Could not get item` error; a missing
parent is a nil dereference (`none`).  When the item is its own parent the
in-place Go mutations compound, which the `if` on `item.parentID` mirrors. -/
def Cache.moveID (c : Cache) (oldID newID : String) : Option (Cache × Option String) :=
  match c.getID oldID with
  | none => some (c, some ("Could not get item: " ++ oldID))
  | some item =>
    match c.getID item.parentID with
    | none => none
    | some parent =>
      let parent' := { parent with children := parent.children.map (fun l => replaceFirst l oldID newID) }
      let c1 := c.insertID item.parentID parent'
      let item0 := if item.parentID = oldID then parent' else item
      let item' := { item0 with idInternal := newID }
      let c2 := c1.insertID newID item'
      some (c2.deleteID oldID, none)

/-- `Cache.MovePath` (lines 368-381): fetch the item, delete it at the old
path, reinsert at the new path, falling back to reinsertion at the old path
when the insert fails. -/
def movePath (c : Cache) (oldPath newPath : String) (auth : Auth) (fetch : Fetcher) :
    Option (Cache × Option String) :=
  match getPath c oldPath auth fetch with
  | (c1, _, Sum.inl e) => some (c1, some e)
  | (_c1, _, Sum.inr none) => none
  | (c1, _, Sum.inr (some item)) =>
    match deletePath c1 oldPath fetch with
    | none => none
    | some c2 =>
      match insertPath c2 newPath auth item fetch with
      | (c3, Except.error e) =>
        let c4 := (insertPath c3 oldPath auth item fetch).1
        some (c4, some e)
      | (c3, Except.ok _) => some (c3, none)

/-! ## File content (content.go) -/

/-- `DriveItemContent`: a byte buffer with its recorded size and dirty flag. -/
structure DriveItemContent where
  data : List Nat
  size : Nat
  hasChanges : Bool
deriving DecidableEq

/-- `NewDriveItemContent`. -/
def NewDriveItemContent (contents : List Nat) : DriveItemContent :=
  ⟨contents, contents.length, false⟩

/-- `DriveItemContent.Read` (content.go lines 28-36): `end` is clamped to the
buffer length, then the slice `data[off:end]` is returned — which is out of
bounds (a panic, `none` here) when `off` exceeds the clamped `end`. -/
def DriveItemContent.read (c : DriveItemContent) (bufLen off : Nat) : Option (List Nat) :=
  let e := if off + bufLen > c.data.length then c.data.length else off + bufLen
  if off ≤ e then some ((c.data.drop off).take (e - off)) else none

/-- `DriveItemContent.Write` (content.go lines 39-56): when
`offset+nWrite > int(size)-1` (int arithmetic) the buffer is truncated at
`offset` and the data appended; otherwise `copy` overwrites in place (writing
`min` of the data length and the remaining room).  The new size is the new
buffer length; the reported count is `uint32(nWrite)`. -/
def DriveItemContent.write (c : DriveItemContent) (data : List Nat) (off : Nat) :
    DriveItemContent × Nat :=
  let nWrite := data.length
  let newData :=
    if (off + nWrite : Int) > (c.size : Int) - 1 then
      c.data.take off ++ data
    else
      let nCopy := min nWrite (c.data.length - off)
      c.data.take off ++ data.take nCopy ++ c.data.drop (off + nCopy)
  (⟨newData, newData.length, true⟩, nWrite % 2 ^ 32)

/-! ## FUSE handlers (part_000) -/

/-- The POSIX return codes used by the handlers. -/
inductive Status where
  | ok
  | enoent
  | eio
  | eremoteio
  | ebadf
  | enosys
deriving DecidableEq

/-- The always-absent paths rejected by `ignore` (part_000 lines 18-36). -/
def ignoredFiles : List String :=
  ["/BDMV", "/.Trash", "/.Trash-1000", "/.xdg-volume-info", "/autorun.inf",
   "/.localized", "/.DS_Store", "/._.", "/.hidden"]

/-- `ignore`: whether the path is one of the always-absent paths. -/
def ignore (path : String) : Bool :=
  ignoredFiles.contains path

/-- `leadingSlash`: make the path start with "/". -/
def leadingSlash (path : String) : String :=
  if strHasPre path "/" then path else "/" ++ path

/-- `FuseFs.GetAttr` (part_000 lines 123-141): ignore-listed paths are ENOENT
before any graph access; a resolution error or nil item is ENOENT; otherwise
the stat structure is filled from the item. -/
def getAttrFS (c : Cache) (name : String) (auth : Auth) (fetch : Fetcher) :
    (Option Attr × Status) × Cache × List String :=
  let nm := leadingSlash name
  if ignore nm then ((none, Status.enoent), c, [])
  else
    match getPath c nm auth fetch with
    | (c1, log, Sum.inl _) => ((none, Status.enoent), c1, log)
    | (c1, log, Sum.inr none) => ((none, Status.enoent), c1, log)
    | (c1, log, Sum.inr (some item)) => ((some item.getAttrOut, Status.ok), c1, log)

/-- `FuseFs.Chmod` (part_000 lines 219-223): the `GetPath` error is discarded
and `item.Chmod(mode)` is called — a nil dereference (`none`) when the path
did not resolve.  `DriveItem.Chmod` keeps the kind bit and re-stores the
item. -/
def chmodFS (c : Cache) (name : String) (auth : Auth) (fetch : Fetcher) (mode : Nat) :
    Option (Status × Cache) :=
  let nm := leadingSlash name
  match getPath c nm auth fetch with
  | (_c1, _, Sum.inl _) => none
  | (_c1, _, Sum.inr none) => none
  | (c1, _, Sum.inr (some item)) =>
    let item' := { item with
      modeInternal := (if item.isDir then S_IFDIR else S_IFREG) ||| mode }
    some (Status.ok, c1.insertID item.idInternal item')

/-- `FuseFs.Unlink` (part_000 lines 350-372): a resolution error mentioning
`does not exist` is ENOENT; any other resolution error leaves a nil item whose
`ID()` call dereferences nil (`none`).  Remote ids are DELETEd remotely first
(`remoteDelete` is the outcome of that call; `none` is success), then
`DeletePath` runs. -/
def unlinkFS (c : Cache) (name : String) (auth : Auth) (fetch : Fetcher)
    (remoteDelete : Option String) : Option (Status × Cache) :=
  let nm := leadingSlash name
  match getPath c nm auth fetch with
  | (c1, _, Sum.inl e) =>
    if strContains e "does not exist" then some (Status.enoent, c1) else none
  | (_c1, _, Sum.inr none) => none
  | (c1, _, Sum.inr (some item)) =>
    if !isLocalID item.idInternal then
      match remoteDelete with
      | some _ => some (Status.eremoteio, c1)
      | none =>
        match deletePath c1 nm fetch with
        | none => none
        | some c2 => some (Status.ok, c2)
    else
      match deletePath c1 nm fetch with
      | none => none
      | some c2 => some (Status.ok, c2)

/-! ## `Rename` (part_000 lines 144-210) -/

/-- The remote interactions of a single `Rename` call: the children-fetch
capability, the outcomes of the first PATCH and of the retry (`none` is
success, `some e` the error text), and the outcome of the id-promotion branch
of `DriveItem.RemoteID` (an empty-file upload performed only for a file whose
id is still local while a token is available; it yields an updated cache and
either the promoted id or an error). -/
structure RenameEnv where
  fetch : Fetcher
  patch1 : Option String
  patch2 : Option String
  promote : Cache → DriveItem → Cache × Except String String

/-- `DriveItem.RemoteID` (drive_item.go lines 131-176): directories and items
with a server id return their id unchanged and without I/O; a local file id
with a token available goes through the upload branch (`env.promote`). -/
def remoteID (env : RenameEnv) (c : Cache) (d : DriveItem) (auth : Auth) :
    Cache × Except String String :=
  if d.isDir then (c, Except.ok d.idInternal)
  else if isLocalID d.idInternal && authTokenPresent auth then env.promote c d
  else (c, Except.ok d.idInternal)

/-- Re-store the item bound at `id` with a new name (`item.SetName` through
the pointer held by the cache; unbound ids have nothing to mutate). -/
def Cache.setNameAt (c : Cache) (id nm : String) : Cache :=
  match c.getID id with
  | none => c
  | some item => c.insertID id { item with nameInternal := nm }

/-- The tail of `Rename` after a successful PATCH (or after a failure that the
source ignores): `MovePath` the local copy, EIO on its failure, OK
otherwise. -/
def renameFinish (c : Cache) (o n : String) (auth : Auth) (env : RenameEnv) :
    Option (Status × Cache) :=
  match movePath c o n auth env.fetch with
  | none => none
  | some (c1, some _) => some (Status.eio, c1)
  | some (c1, none) => some (Status.ok, c1)

/-- The patch phase of `Rename`: set the local name first when the basename
changes, then PATCH.  Only an error containing `resourceModified` triggers the
single retry; if the retry fails too the local name is reverted and EREMOTEIO
returned.  Any other PATCH failure falls through to the local move. -/
def renamePhase2 (c : Cache) (o n itemID : String) (auth : Auth) (env : RenameEnv) :
    Option (Status × Cache) :=
  let c1 := if pathBase n ≠ pathBase o then c.setNameAt itemID (pathBase n) else c
  match env.patch1 with
  | none => renameFinish c1 o n auth env
  | some e1 =>
    if strContains e1 "resourceModified" then
      match env.patch2 with
      | none => renameFinish c1 o n auth env
      | some _ => some (Status.eremoteio, c1.setNameAt itemID (pathBase o))
    else renameFinish c1 o n auth env

/-- `FuseFs.Rename`: resolve the old path (the error is discarded; a nil item
panics inside `RemoteID`), obtain a server id (EBADF when it is local or the
promotion failed), resolve and validate the new parent when the directory
changes, then run the patch phase. -/
def renameFS (c : Cache) (oldName newName : String) (auth : Auth) (env : RenameEnv) :
    Option (Status × Cache) :=
  let o := leadingSlash oldName
  let n := leadingSlash newName
  match getPath c o auth env.fetch with
  | (_c1, _, Sum.inl _) => none
  | (_c1, _, Sum.inr none) => none
  | (c1, _, Sum.inr (some item)) =>
    match remoteID env c1 item auth with
    | (c2, Except.error _) => some (Status.ebadf, c2)
    | (c2, Except.ok id) =>
      if isLocalID id then some (Status.ebadf, c2)
      else if pathDir n = pathDir o then renamePhase2 c2 o n id auth env
      else
        match getPath c2 (pathDir n) auth env.fetch with
        | (c3, _, Sum.inl _) => some (Status.eremoteio, c3)
        | (_c3, _, Sum.inr none) => none
        | (c3, _, Sum.inr (some newParent)) =>
          match remoteID env c3 newParent auth with
          | (c4, Except.error _) => some (Status.ebadf, c4)
          | (c4, Except.ok parentID) =>
            if isLocalID parentID then some (Status.ebadf, c4)
            else renamePhase2 c4 o n id auth env

/-! ## Delta feed (part_001 lines 383-442) -/

/-- The Graph API base URL trimmed off the continuation links by `pollDeltas`
(the `graphURL` constant lives outside the given sources; spec §6). -/
def graphURL : String := "https://graph.microsoft.com/v1.0"

/-- A parsed delta page (`deltaResponse`). -/
structure DeltaResponse where
  nextLink : String
  deltaLink : String
  values : List DriveItem

/-- `Cache.applyDelta` (lines 438-442): the body is a TODO stub — it logs and
returns nil without touching the cache. -/
def applyDelta (c : Cache) (_item : DriveItem) : Cache × Option String :=
  (c, none)

/-- `Cache.pollDeltas` (lines 413-435) on one successfully fetched and parsed
page: apply every delta, then either follow `@odata.nextLink` (continue) or
store `@odata.deltaLink` and stop. -/
def pollDeltasPage (c : Cache) (page : DeltaResponse) : Cache × Bool :=
  let c1 := page.values.foldl (fun acc it => (applyDelta acc it).1) c
  if page.nextLink ≠ "" then
    ({ c1 with deltaLink := trimPre page.nextLink graphURL }, true)
  else
    ({ c1 with deltaLink := trimPre page.deltaLink graphURL }, false)

/-! ## Concrete scenario inputs -/

/-- A root directory item with the given children list and subdir count. -/
def rootItem (kids : Option (List String)) (sub : Nat) : DriveItem :=
  { idInternal := "root-id", nameInternal := "root", sizeInternal := 0, modTimeInternal := 0,
    modeInternal := S_IFDIR ||| 0o755, parentID := "", parentPath := "",
    children := kids, subdir := sub, fileInternal := false, folderInternal := true,
    deletedState := none, hasChanges := false }

/-- A plain remote file item. -/
def plainFile (id nm parent : String) : DriveItem :=
  { idInternal := id, nameInternal := nm, sizeInternal := 0, modTimeInternal := 0,
    modeInternal := S_IFREG ||| 0o644, parentID := parent, parentPath := "/drive/root:",
    children := none, subdir := 0, fileInternal := true, folderInternal := false,
    deletedState := none, hasChanges := false }

/-- A plain remote directory item. -/
def plainDir (id nm parent : String) (kids : Option (List String)) (sub : Nat) : DriveItem :=
  { idInternal := id, nameInternal := nm, sizeInternal := 0, modTimeInternal := 0,
    modeInternal := S_IFDIR ||| 0o755, parentID := parent, parentPath := "/drive/root:",
    children := kids, subdir := sub, fileInternal := false, folderInternal := true,
    deletedState := none, hasChanges := false }

/-- A fetcher that always fails (no network); the scenarios below never reach
it because the relevant children lists are initialized. -/
def fetchFail : Fetcher := fun _ => Except.error "offline"

/-- Graph with only the root, whose children are enumerated and empty. -/
def cacheEmptyRoot : Cache :=
  ⟨[("root-id", rootItem (some []) 0)], "root-id", ""⟩

/-- Graph with the root and one file `/x`. -/
def cacheXFile : Cache :=
  ⟨[("root-id", rootItem (some ["idx"]) 0), ("idx", plainFile "idx" "x" "root-id")],
   "root-id", ""⟩

/-- Graph with the root, two enumerated directories `/a` and `/b`, and one
file `/a/f`. -/
def cacheTwoDirs : Cache :=
  ⟨[("root-id", rootItem (some ["a-id", "b-id"]) 2),
    ("a-id", plainDir "a-id" "a" "root-id" (some ["f-id"]) 0),
    ("b-id", plainDir "b-id" "b" "root-id" (some []) 0),
    ("f-id", plainFile "f-id" "f" "a-id")],
   "root-id", ""⟩

/-- Graph with the root and one file `/a`. -/
def cacheFileA : Cache :=
  ⟨[("root-id", rootItem (some ["a-id"]) 0), ("a-id", plainFile "a-id" "a" "root-id")],
   "root-id", ""⟩

/-- Graph with the root and one (empty, enumerated) directory `/d`. -/
def cacheDirD : Cache :=
  ⟨[("root-id", rootItem (some ["d-id"]) 1), ("d-id", plainDir "d-id" "d" "root-id" (some []) 0)],
   "root-id", ""⟩

/-- Graph with the root, a directory `/a` and a file `/a/b`. -/
def cacheAB : Cache :=
  ⟨[("root-id", rootItem (some ["a-id"]) 1),
    ("a-id", plainDir "a-id" "a" "root-id" (some ["b-id"]) 0),
    ("b-id", plainFile "b-id" "b" "a-id")],
   "root-id", ""⟩

/-- Rename environment whose PATCH fails once with an error that does not
mention `resourceModified` (the retry outcome is irrelevant: it is never
consulted). -/
def envPatchServerErr : RenameEnv :=
  ⟨fetchFail, some "HTTP 500 internal server error", none,
   fun c _ => (c, Except.error "promotion not exercised")⟩

/-- Rename environment whose PATCH fails with a `resourceModified` error and
whose retry fails as well. -/
def envPatchRM : RenameEnv :=
  ⟨fetchFail, some "409 resourceModified: etag mismatch",
   some "409 resourceModified: still behind",
   fun c _ => (c, Except.error "promotion not exercised")⟩

/-- The delta page that marks `/a/b` as deleted on the server. -/
def deltaPageDeleteB : DeltaResponse :=
  ⟨"", "https://graph.microsoft.com/v1.0/me/drive/root/delta?token=t2",
   [{ plainFile "b-id" "b" "a-id" with deletedState := some "deleted" }]⟩

/-! ## The subdir-count invariant of spec §8 -/

/-- The number of ids in a children list whose item is present in the graph
and is a directory. -/
def countDirs (c : Cache) (l : List String) : Nat :=
  (l.filter (fun cid => ((c.getID cid).map DriveItem.isDir).getD false)).length

/-- A directory with initialized children has `subdir` equal to its number of
directory children; uninitialized directories and files are unconstrained. -/
def dirChildrenOK (c : Cache) (d : DriveItem) : Bool :=
  !d.isDir ||
    (match d.children with
     | none => true
     | some l => d.subdir == countDirs c l)

/-- The spec §8 invariant `subdir_count(D) == |dir children of D|` over the
whole graph. -/
def subdirOK (c : Cache) : Bool :=
  c.metadata.all (fun p => dirChildrenOK c p.2)

/-! ## Helper lemmas about the association-list maps -/

theorem mapLookup_store_self (l : List (String × DriveItem)) (k : String) (v : DriveItem) :
    mapLookup (mapStore l k v) k = some v := by
  induction l with
  | nil => simp [mapStore, mapLookup]
  | cons p rest ih =>
    by_cases h : p.1 = k <;> simp [mapStore, mapLookup, h, ih]

theorem mapLookup_store_ne (l : List (String × DriveItem)) (k k' : String) (v : DriveItem)
    (h : k' ≠ k) : mapLookup (mapStore l k v) k' = mapLookup l k' := by
  induction l with
  | nil => simp [mapStore, mapLookup, h, Ne.symm h]
  | cons p rest ih =>
    by_cases hp : p.1 = k
    · simp [mapStore, mapLookup, hp, h, Ne.symm h]
    · by_cases hp' : p.1 = k' <;> simp [mapStore, mapLookup, hp, hp', h, ih]

theorem mapLookup_remove_self (l : List (String × DriveItem)) (k : String) :
    mapLookup (mapRemove l k) k = none := by
  induction l with
  | nil => simp [mapRemove, mapLookup]
  | cons p rest ih =>
    by_cases h : p.1 = k <;> simp [mapRemove, mapLookup, h, ih]

theorem mapLookup_remove_ne (l : List (String × DriveItem)) (k k' : String) (h : k' ≠ k) :
    mapLookup (mapRemove l k) k' = mapLookup l k' := by
  induction l with
  | nil => simp [mapRemove, mapLookup]
  | cons p rest ih =>
    by_cases hp : p.1 = k
    · simp [mapRemove, mapLookup, hp, Ne.symm h, ih]
    · by_cases hp' : p.1 = k' <;> simp [mapRemove, mapLookup, hp, hp', h, ih]

theorem getID_insert_self (c : Cache) (k : String) (v : DriveItem) :
    (c.insertID k v).getID k = some v :=
  mapLookup_store_self c.metadata k v

theorem getID_insert_ne (c : Cache) (k k' : String) (v : DriveItem) (h : k' ≠ k) :
    (c.insertID k v).getID k' = c.getID k' :=
  mapLookup_store_ne c.metadata k k' v h

theorem getID_delete_self (c : Cache) (k : String) :
    (c.deleteID k).getID k = none :=
  mapLookup_remove_self c.metadata k

theorem getID_delete_ne (c : Cache) (k k' : String) (h : k' ≠ k) :
    (c.deleteID k).getID k' = c.getID k' :=
  mapLookup_remove_ne c.metadata k k' h

theorem getID_setNameAt (c : Cache) (id nm : String) :
    (c.setNameAt id nm).getID id = (c.getID id).map (fun it => { it with nameInternal := nm }) := by
  unfold Cache.setNameAt
  cases h : c.getID id with
  | none => simp [h]
  | some it => simp [h, getID_insert_self]

theorem setNameAt_name (c : Cache) (id nm : String) (h : (c.getID id).isSome = true) :
    ((c.setNameAt id nm).getID id).map DriveItem.nameInternal = some nm := by
  rw [getID_setNameAt]
  cases hc : c.getID id with
  | none => rw [hc] at h; simp at h
  | some it => simp

theorem remoteID_nonlocal (env : RenameEnv) (c : Cache) (d : DriveItem) (auth : Auth)
    (h : isLocalID d.idInternal = false) :
    remoteID env c d auth = (c, Except.ok d.idInternal) := by
  unfold remoteID
  by_cases hd : d.isDir <;> simp [hd, h]

theorem renamePhase2_rm_fails (c : Cache) (o n itemID : String) (auth : Auth)
    (env : RenameEnv) (item : DriveItem) (e1 e2 : String)
    (hb : c.getID itemID = some item)
    (hp1 : env.patch1 = some e1) (he1 : strContains e1 "resourceModified" = true)
    (hp2 : env.patch2 = some e2) :
    (renamePhase2 c o n itemID auth env).map Prod.fst = some Status.eremoteio ∧
    ((renamePhase2 c o n itemID auth env).bind
        (fun p => (p.2.getID itemID).map DriveItem.nameInternal)) = some (pathBase o) := by
  have hphase : renamePhase2 c o n itemID auth env =
      some (Status.eremoteio,
        (if pathBase n ≠ pathBase o then c.setNameAt itemID (pathBase n) else c).setNameAt
          itemID (pathBase o)) := by
    unfold renamePhase2
    simp only [hp1, he1, hp2]
    simp
  rw [hphase]
  refine ⟨rfl, ?_⟩
  simp only [Option.some_bind]
  apply setNameAt_name
  by_cases hbn : pathBase n ≠ pathBase o
  · rw [if_pos hbn, getID_setNameAt, hb]
    simp
  · rw [if_neg hbn, hb]
    simp

/-! ## Helper lemmas about the content store -/

theorem read_drop_take (c : DriveItemContent) (bufLen off : Nat) (h : off ≤ c.data.length) :
    c.read bufLen off = some ((c.data.drop off).take bufLen) := by
  unfold DriveItemContent.read
  by_cases hgt : off + bufLen > c.data.length
  · rw [if_pos hgt, if_pos h]
    congr 1
    rw [List.take_of_length_le (by rw [List.length_drop]),
        List.take_of_length_le (by rw [List.length_drop]; omega)]
  · rw [if_neg hgt, if_pos (by omega : off ≤ off + bufLen)]
    congr 1
    rw [Nat.add_sub_cancel_left]

theorem write_data_eq (c : DriveItemContent) (data : List Nat) (off : Nat) :
    (c.write data off).1.data =
      (if (off + data.length : Int) > (c.size : Int) - 1 then
        c.data.take off ++ data
      else
        c.data.take off ++ data.take (min data.length (c.data.length - off)) ++
          c.data.drop (off + min data.length (c.data.length - off))) := by
  unfold DriveItemContent.write
  by_cases hb : (off + data.length : Int) > (c.size : Int) - 1 <;> simp [hb]

theorem write_read_aux (c : DriveItemContent) (data : List Nat) (off : Nat)
    (hoff : off ≤ c.data.length) (hsz : c.size = c.data.length) :
    (c.write data off).1.read data.length off = some data := by
  have hlen_take : (c.data.take off).length = off := by
    rw [List.length_take]; omega
  by_cases hb : (off + data.length : Int) > (c.size : Int) - 1
  · have hd : (c.write data off).1.data = c.data.take off ++ data := by
      rw [write_data_eq, if_pos hb]
    have hle : off ≤ (c.write data off).1.data.length := by
      rw [hd, List.length_append, hlen_take]; omega
    rw [read_drop_take _ _ _ hle, hd, List.drop_left' hlen_take, List.take_length]
  · have hmin : min data.length (c.data.length - off) = data.length := by omega
    have hd : (c.write data off).1.data =
        c.data.take off ++ (data ++ c.data.drop (off + data.length)) := by
      rw [write_data_eq, if_neg hb, hmin, List.take_length, List.append_assoc]
    have hle : off ≤ (c.write data off).1.data.length := by
      rw [hd, List.length_append, hlen_take]; omega
    rw [read_drop_take _ _ _ hle, hd, List.drop_left' hlen_take, List.take_left' rfl]

/-! ## Claim C1 — rename failure handling -/

/-- C1 (counterexample): a rename `/x → /y` whose PATCH fails with an error
not containing `resourceModified` does not return EREMOTEIO and does not
revert the local name: the failure is ignored, the local move then fails to
find `/x` (the name is already `y`), and the handler returns EIO with the
item still named `y`. -/
theorem rename_other_patch_error_cex :
    (renameFS cacheXFile "/x" "/y" (some "tok") envPatchServerErr).map Prod.fst =
      some Status.eio ∧
    ((renameFS cacheXFile "/x" "/y" (some "tok") envPatchServerErr).bind
        (fun p => (p.2.getID "idx").map DriveItem.nameInternal)) = some "y" :=
  ⟨rfl, rfl⟩

/-- C1 (amended): only when the PATCH failure message contains
`resourceModified` and the single retry fails as well does `Rename` return
EREMOTEIO with the item's local name reverted to the original basename of the
old path.  Proved for every rename that reaches the PATCH: the first conjunct
covers renames within a directory, the second covers cross-directory renames
(where the new parent resolved with a non-local id); in both the old path must
have resolved to an item with a non-local id that is still bound in the graph
when the PATCH is issued. -/
theorem rename_resourceModified_retry_reverts
    (c : Cache) (oldName newName : String) (auth : Auth) (env : RenameEnv)
    (item : DriveItem) (e1 e2 : String)
    (hres : (getPath c (leadingSlash oldName) auth env.fetch).2.2 = Sum.inr (some item))
    (hlocal : isLocalID item.idInternal = false)
    (hp1 : env.patch1 = some e1) (he1 : strContains e1 "resourceModified" = true)
    (hp2 : env.patch2 = some e2) :
    (pathDir (leadingSlash newName) = pathDir (leadingSlash oldName) →
      (getPath c (leadingSlash oldName) auth env.fetch).1.getID item.idInternal =
        some item →
      (renameFS c oldName newName auth env).map Prod.fst = some Status.eremoteio ∧
      ((renameFS c oldName newName auth env).bind
          (fun p => (p.2.getID item.idInternal).map DriveItem.nameInternal)) =
        some (pathBase (leadingSlash oldName))) ∧
    (∀ newParent : DriveItem,
      pathDir (leadingSlash newName) ≠ pathDir (leadingSlash oldName) →
      (getPath (getPath c (leadingSlash oldName) auth env.fetch).1
          (pathDir (leadingSlash newName)) auth env.fetch).2.2 =
        Sum.inr (some newParent) →
      isLocalID newParent.idInternal = false →
      (getPath (getPath c (leadingSlash oldName) auth env.fetch).1
          (pathDir (leadingSlash newName)) auth env.fetch).1.getID item.idInternal =
        some item →
      (renameFS c oldName newName auth env).map Prod.fst = some Status.eremoteio ∧
      ((renameFS c oldName newName auth env).bind
          (fun p => (p.2.getID item.idInternal).map DriveItem.nameInternal)) =
        some (pathBase (leadingSlash oldName))) := by
  rcases hG : getPath c (leadingSlash oldName) auth env.fetch with ⟨c1, log, r⟩
  rw [hG] at hres
  have hr : r = Sum.inr (some item) := hres
  subst hr
  constructor
  · intro hdir hbound
    have hb1 : c1.getID item.idInternal = some item := hbound
    have hmain : renameFS c oldName newName auth env =
        renamePhase2 c1 (leadingSlash oldName) (leadingSlash newName)
          item.idInternal auth env := by
      unfold renameFS
      simp only [hG, remoteID_nonlocal env c1 item auth hlocal, hlocal, hdir]
      simp
    rw [hmain]
    exact renamePhase2_rm_fails c1 (leadingSlash oldName) (leadingSlash newName)
      item.idInternal auth env item e1 e2 hb1 hp1 he1 hp2
  · intro newParent hdir hres2 hplocal hbound
    have hres2a : (getPath c1 (pathDir (leadingSlash newName)) auth env.fetch).2.2 =
        Sum.inr (some newParent) := hres2
    have hbounda : (getPath c1 (pathDir (leadingSlash newName)) auth env.fetch).1.getID
        item.idInternal = some item := hbound
    rcases hG2 : getPath c1 (pathDir (leadingSlash newName)) auth env.fetch with ⟨c3, log2, r2⟩
    rw [hG2] at hres2a hbounda
    have hr2 : r2 = Sum.inr (some newParent) := hres2a
    subst hr2
    have hb3 : c3.getID item.idInternal = some item := hbounda
    have hmain : renameFS c oldName newName auth env =
        renamePhase2 c3 (leadingSlash oldName) (leadingSlash newName)
          item.idInternal auth env := by
      unfold renameFS
      simp only [hG, remoteID_nonlocal env c1 item auth hlocal, hlocal, hdir,
        hG2, remoteID_nonlocal env c3 newParent auth hplocal, hplocal]
      simp
    rw [hmain]
    exact renamePhase2_rm_fails c3 (leadingSlash oldName) (leadingSlash newName)
      item.idInternal auth env item e1 e2 hb3 hp1 he1 hp2

/-- C1 (witness): concrete runs of both halves of the amended theorem — the
same-directory rename `/x → /y` and the cross-directory rename
`/a/f → /b/g`, each with a PATCH that fails twice with `resourceModified`
errors, return EREMOTEIO and leave the item under its original basename. -/
theorem rename_resourceModified_retry_reverts_witness :
    ((renameFS cacheXFile "/x" "/y" (some "tok") envPatchRM).map Prod.fst =
        some Status.eremoteio ∧
      ((renameFS cacheXFile "/x" "/y" (some "tok") envPatchRM).bind
          (fun p => (p.2.getID (plainFile "idx" "x" "root-id").idInternal).map
            DriveItem.nameInternal)) = some (pathBase (leadingSlash "/x"))) ∧
    ((renameFS cacheTwoDirs "/a/f" "/b/g" (some "tok") envPatchRM).map Prod.fst =
        some Status.eremoteio ∧
      ((renameFS cacheTwoDirs "/a/f" "/b/g" (some "tok") envPatchRM).bind
          (fun p => (p.2.getID (plainFile "f-id" "f" "a-id").idInternal).map
            DriveItem.nameInternal)) = some (pathBase (leadingSlash "/a/f"))) :=
  ⟨(rename_resourceModified_retry_reverts cacheXFile "/x" "/y" (some "tok") envPatchRM
      (plainFile "idx" "x" "root-id") "409 resourceModified: etag mismatch"
      "409 resourceModified: still behind" rfl rfl rfl rfl rfl).1 rfl rfl,
   (rename_resourceModified_retry_reverts cacheTwoDirs "/a/f" "/b/g" (some "tok") envPatchRM
      (plainFile "f-id" "f" "a-id") "409 resourceModified: etag mismatch"
      "409 resourceModified: still behind" rfl rfl rfl rfl rfl).2
      (plainDir "b-id" "b" "root-id" (some []) 0) (by decide) rfl rfl rfl⟩

/-! ## Claim C2 — delete and the parent's children list -/

/-- C2 (code bug): deleting the present file `/a` removes it from the
metadata map but leaves its id in the parent's children list — the source
guards `removeParent` with `err != nil`, so for items that resolve the detach
never runs. -/
theorem deletePath_keeps_child_in_parent_list :
    (deletePath cacheFileA "/a" fetchFail).isSome = true ∧
    ((deletePath cacheFileA "/a" fetchFail).bind (fun c => c.getID "a-id")) = none ∧
    ((deletePath cacheFileA "/a" fetchFail).bind
        (fun c => (c.getID "root-id").bind DriveItem.children)) = some ["a-id"] :=
  ⟨rfl, rfl, rfl⟩

/-! ## Claim C3 — the subdir-count invariant -/

/-- C3 (code bug): the subdir-count invariant holds of the graph containing
the enumerated directory `/d`, and is broken by deleting `/d` — because
`DeletePath` neither detaches the id from the parent's children list nor
decrements the parent's `subdir` (the `removeParent` call is dead code behind
an `err != nil` guard). -/
theorem deletePath_breaks_subdir_count :
    subdirOK cacheDirD = true ∧
    (deletePath cacheDirD "/d" fetchFail).map subdirOK = some false :=
  ⟨rfl, rfl⟩

/-! ## Claim C4 — not-found handling across handlers -/

/-- C4 (counterexample): `Chmod` on a path absent both locally and remotely
does not return ENOENT — it discards the `GetPath` error and dereferences the
nil item (a crash, modelled as `none`). -/
theorem chmod_absent_path_cex :
    chmodFS cacheEmptyRoot "/missing" (some "tok") fetchFail 420 = none :=
  rfl

/-- C4 (amended): when path resolution fails with a not-found error,
`GetAttr` and `Unlink` return ENOENT, while `Chmod` ignores the resolution
error and dereferences the nil item (a crash) instead of returning ENOENT. -/
theorem absent_path_handlers (c : Cache) (name : String) (auth : Auth) (fetch : Fetcher)
    (m : Nat) (e : String)
    (h : (getPath c (leadingSlash name) auth fetch).2.2 = Sum.inl e)
    (he : strContains e "does not exist" = true) :
    (getAttrFS c name auth fetch).1.2 = Status.enoent ∧
    (unlinkFS c name auth fetch none).map Prod.fst = some Status.enoent ∧
    chmodFS c name auth fetch m = none := by
  rcases hG : getPath c (leadingSlash name) auth fetch with ⟨c1, log, r⟩
  rw [hG] at h
  have hr : r = Sum.inl e := h
  subst hr
  refine ⟨?_, ?_, ?_⟩
  · unfold getAttrFS
    by_cases hi : ignore (leadingSlash name) <;> simp [hi, hG]
  · unfold unlinkFS
    simp only [hG, he]
    simp
  · unfold chmodFS
    simp only [hG]

/-- C4 (witness): concrete run of the amended theorem on a graph that only
contains an (enumerated, empty) root. -/
theorem absent_path_handlers_witness :
    (getAttrFS cacheEmptyRoot "/gone" (some "tok") fetchFail).1.2 = Status.enoent ∧
    (unlinkFS cacheEmptyRoot "/gone" (some "tok") fetchFail none).map Prod.fst =
      some Status.enoent ∧
    chmodFS cacheEmptyRoot "/gone" (some "tok") fetchFail 420 = none :=
  absent_path_handlers cacheEmptyRoot "/gone" (some "tok") fetchFail 420
    "gone does not exist on server or in local cache" rfl rfl

/-! ## Claim C5 — write/read round trip -/

/-- C5 (counterexample): the count reported by `Write` is `uint32(len(data))`,
which is not `len(data)` for a 2^32-byte buffer (it truncates to 0). -/
theorem write_reported_count_truncates_cex :
    (DriveItemContent.write ⟨[], 0, false⟩ (List.replicate (2 ^ 32) 0) 0).2 ≠
      (List.replicate (2 ^ 32) 0).length := by
  have h : ∀ l : List Nat, (DriveItemContent.write ⟨[], 0, false⟩ l 0).2 = l.length % 2 ^ 32 :=
    fun _ => rfl
  rw [h, List.length_replicate]
  norm_num

/-- C5 (amended): for an offset within the buffer, writing `data` at `off` and
reading `len(data)` bytes back from `off` returns exactly `data`, and the
reported count equals `len(data)` whenever `len(data) < 2^32` (the return
value is truncated to `uint32`). -/
theorem write_then_read_roundtrip (c : DriveItemContent) (data : List Nat) (off : Nat)
    (hoff : off ≤ c.data.length) (hsz : c.size = c.data.length)
    (hlen : data.length < 2 ^ 32) :
    (c.write data off).1.read data.length off = some data ∧
    (c.write data off).2 = data.length :=
  ⟨write_read_aux c data off hoff hsz, Nat.mod_eq_of_lt hlen⟩

/-- C5 (witness): concrete run of the round trip — writing `[7, 8]` at offset
1 of `[1, 2, 3]` reads back `[7, 8]` and reports 2 bytes written. -/
theorem write_then_read_roundtrip_witness :
    (DriveItemContent.write ⟨[1, 2, 3], 3, false⟩ [7, 8] 1).1.read 2 1 = some [7, 8] ∧
    (DriveItemContent.write ⟨[1, 2, 3], 3, false⟩ [7, 8] 1).2 = 2 :=
  write_then_read_roundtrip ⟨[1, 2, 3], 3, false⟩ [7, 8] 1 (by decide) rfl (by norm_num)

/-! ## Claim C6 — read bounds -/

/-- C6 (counterexample): reading at an offset past end-of-file is an
out-of-bounds slice (a panic, modelled as `none`), not a short read: on an
empty buffer, `Read` at offset 1 panics. -/
theorem read_offset_past_eof_cex :
    DriveItemContent.read ⟨[], 0, false⟩ 0 1 = none :=
  rfl

/-- C6 (amended): for every offset that does not exceed the buffer length,
`Read` succeeds and copies up to `len` bytes starting at the offset, with a
short (possibly empty) result when `offset + len` reaches or passes
end-of-file; offsets past end-of-file make the slice out of bounds (a
panic). -/
theorem read_within_bounds (c : DriveItemContent) (bufLen off : Nat)
    (h : off ≤ c.data.length) :
    c.read bufLen off = some ((c.data.drop off).take bufLen) :=
  read_drop_take c bufLen off h

/-- C6 (witness): concrete run — a read of 5 bytes at offset 1 of a 2-byte
buffer returns the single remaining byte. -/
theorem read_within_bounds_witness :
    DriveItemContent.read ⟨[5, 6], 2, false⟩ 5 1 =
      some ((([5, 6] : List Nat).drop 1).take 5) :=
  read_within_bounds ⟨[5, 6], 2, false⟩ 5 1 (by decide)

/-! ## Claim C7 — delta deletions -/

/-- C7 (code bug): `applyDelta` is a TODO stub that returns nil without
touching the cache, so a delta page marking `/a/b` deleted leaves the item in
the graph and a subsequent `GetAttr` of `/a/b` still succeeds instead of
returning ENOENT. -/
theorem applyDelta_stub_keeps_deleted_item :
    ((pollDeltasPage cacheAB deltaPageDeleteB).1).getID "b-id" =
      some (plainFile "b-id" "b" "a-id") ∧
    (getAttrFS (pollDeltasPage cacheAB deltaPageDeleteB).1 "/a/b" (some "tok")
        fetchFail).1.2 = Status.ok :=
  ⟨rfl, rfl⟩

/-! ## Claim C8 — the ignore list -/

/-- C8 (counterexample): only `GetAttr` consults the ignore list — `Chmod` on
the ignore-listed path `/.DS_Store` (absent from the graph) does not return
ENOENT; it discards the resolution error and dereferences the nil item (a
crash). -/
theorem chmod_ignored_path_cex :
    chmodFS cacheEmptyRoot "/.DS_Store" (some "tok") fetchFail 420 = none :=
  rfl

/-- C8 (amended): `GetAttr` rejects every ignore-listed path with ENOENT,
leaving the graph untouched and making no remote call; the other handlers do
not special-case these paths. -/
theorem getAttr_ignored_path_enoent (c : Cache) (p : String) (auth : Auth) (fetch : Fetcher)
    (h : ignore (leadingSlash p) = true) :
    getAttrFS c p auth fetch = ((none, Status.enoent), c, []) := by
  unfold getAttrFS
  simp [h]

/-- C8 (witness): concrete run — `GetAttr` of `/.DS_Store` returns ENOENT
with the graph unchanged and an empty remote-call log. -/
theorem getAttr_ignored_path_enoent_witness :
    getAttrFS cacheAB "/.DS_Store" (some "tok") fetchFail =
      ((none, Status.enoent), cacheAB, []) :=
  getAttr_ignored_path_enoent cacheAB "/.DS_Store" (some "tok") fetchFail rfl

/-! ## Claim C9 — MoveID -/

/-- C9 (counterexample): `MoveID(a, a)` on a present item reports success but
deletes the item outright — `InsertID(a, item)` is immediately undone by
`DeleteID(a)`, so `get(b)` (with `b = a`) does not return the item. -/
theorem moveID_same_id_cex :
    (cacheFileA.moveID "a-id" "a-id").map Prod.snd = some none ∧
    ((cacheFileA.moveID "a-id" "a-id").bind (fun p => p.1.getID "a-id")) = none :=
  ⟨rfl, rfl⟩

/-- C9 (amended): `MoveID` on an id absent from the graph fails with the
unknown-id error and changes nothing; on a present item whose parent is
present, with the new id distinct from the old id and both distinct from the
parent's id, it succeeds, rebinds the item (with its id field replaced)
under the new id, removes the old binding, and rewrites the entry for the old
id in the parent's children list.  (`MoveID` dereferences nil when the
parent is absent, and `MoveID(a, a)` deletes the item.) -/
theorem moveID_spec (c : Cache) (a b : String) :
    (c.getID a = none → c.moveID a b = some (c, some ("Could not get item: " ++ a))) ∧
    (∀ item parent, c.getID a = some item → c.getID item.parentID = some parent →
      a ≠ b → item.parentID ≠ a → item.parentID ≠ b →
      (c.moveID a b).map
          (fun p => (p.2, p.1.getID b, p.1.getID a, p.1.getID item.parentID)) =
        some (none, some { item with idInternal := b }, none,
          some { parent with
            children := parent.children.map (fun l => replaceFirst l a b) })) := by
  constructor
  · intro h
    simp [Cache.moveID, h]
  · intro item parent ha hp hab hpa hpb
    simp only [Cache.moveID, ha, hp]
    rw [if_neg hpa]
    simp only [Option.map_some']
    rw [getID_delete_ne _ _ _ (Ne.symm hab), getID_insert_self,
        getID_delete_self,
        getID_delete_ne _ _ _ hpa, getID_insert_ne _ _ _ _ hpb, getID_insert_self]

/-- C9 (witness): concrete runs of both halves — `MoveID` of an absent id
fails without changes, and `MoveID("a-id", "new-id")` rebinds the file under
the new id, removes the old binding and rewrites the root's children entry. -/
theorem moveID_spec_witness :
    (cacheEmptyRoot.moveID "zz" "w" =
      some (cacheEmptyRoot, some ("Could not get item: " ++ "zz"))) ∧
    ((cacheFileA.moveID "a-id" "new-id").map
        (fun p => (p.2, p.1.getID "new-id", p.1.getID "a-id",
          p.1.getID (plainFile "a-id" "a" "root-id").parentID)) =
      some (none, some { plainFile "a-id" "a" "root-id" with idInternal := "new-id" }, none,
        some { rootItem (some ["a-id"]) 0 with
          children := (rootItem (some ["a-id"]) 0).children.map
            (fun l => replaceFirst l "a-id" "new-id") })) :=
  ⟨(moveID_spec cacheEmptyRoot "zz" "w").1 rfl,
   (moveID_spec cacheFileA "a-id" "new-id").2 (plainFile "a-id" "a" "root-id")
     (rootItem (some ["a-id"]) 0) rfl rfl (by decide) (by decide) (by decide)⟩

/-! ## Claim C10 — children of a plain file -/

/-- C10: requesting the children of a present plain file returns an empty
children map with no error, with the graph unchanged and no remote call made,
whatever auth was supplied. -/
theorem getChildrenID_plain_file_empty (c : Cache) (id : String) (auth : Auth)
    (fetch : Fetcher) (item : DriveItem)
    (h : c.getID id = some item) (hd : item.isDir = false) :
    getChildrenID c id auth fetch = (c, [], Except.ok []) := by
  unfold getChildrenID
  simp [h, hd]

/-- C10 (witness): concrete run — the children of the file `/a`, requested
with nil auth, are the empty map and no fetch happens. -/
theorem getChildrenID_plain_file_empty_witness :
    getChildrenID cacheFileA "a-id" none fetchFail = (cacheFileA, [], Except.ok []) :=
  getChildrenID_plain_file_empty cacheFileA "a-id" none fetchFail
    (plainFile "a-id" "a" "root-id") rfl rfl
